import Mathlib

/-!
Verification development for a client-side stock dashboard.

The repository has two scripts:
* `script.js` — a fetch coordinator (`fetchStockData`) over two remote
  sources with a deterministic synthetic fallback (`fetchFallbackData`),
  plus a ticker display routine (`updateTickerDisplay`).
* a second script — a CSV series parser (`parseCSV`), metric functions
  (`pct`, `calcVolatility`), a scenario calculator
  (`updateTargetFromMultiple`) and a loader (`loadData`).

Numbers are embedded as exact rationals (`ℚ`); the JavaScript values in
play are small enough that double rounding never changes the comparisons
the claims are about, and `Math.log` is embedded as `Real.log`.  Calendar
dates are embedded as day numbers (days since 1970-01-01), with the
JavaScript day-of-week convention (0 = Sunday).
-/

/-! ## Calendar model (JavaScript `Date`, month 0-based, day 1-based) -/

/-- Gregorian leap-year test. -/
def isLeap (y : ℕ) : Bool :=
  (y % 4 == 0 && y % 100 != 0) || y % 400 == 0

/-- Days in month `m` (0-based, JavaScript convention) of year `y`. -/
def daysInMonth (y m : ℕ) : ℕ :=
  if m = 1 then (if isLeap y then 29 else 28)
  else if m = 3 ∨ m = 5 ∨ m = 8 ∨ m = 10 then 30
  else 31

/-- Days in year `y`. -/
def daysInYear (y : ℕ) : ℕ := if isLeap y then 366 else 365

/-- Day number (days since 1970-01-01) of the civil date `(y, m, d)` with
`m` 0-based and `d` 1-based, for years from 1970 on; this is the value of
`new Date(y, m, d)` up to the fixed factor of 86400000 ms. -/
def dayNumber (y m d : ℕ) : ℕ :=
  (List.range (y - 1970)).foldl (fun acc i => acc + daysInYear (1970 + i)) 0
    + (List.range m).foldl (fun acc i => acc + daysInMonth y i) 0
    + (d - 1)

/-- JavaScript `Date.prototype.getDay`: 0 = Sunday … 6 = Saturday.
1970-01-01 (day number 0) was a Thursday. -/
def dow (n : ℕ) : ℕ := (n + 4) % 7

/-! ## Price bars -/

/-- One daily price bar as built by `script.js` (dates as day numbers,
prices as exact rationals, volume integral). The JavaScript field `open`
is a Lean keyword, hence `open'`. -/
structure Bar where
  date : ℕ
  open' : ℚ
  high : ℚ
  low : ℚ
  close : ℚ
  volume : ℤ
  deriving Repr, DecidableEq

/-- A placeholder bar, used only to give `List.getD` a default; every
theorem below that indexes a list guards the index. -/
def dummyBar : Bar := ⟨0, 0, 0, 0, 0, 0⟩

/-! ## Seeded linear-congruential generator (`pseudoRandom` in `script.js`)

```js
let seed = 42;
function pseudoRandom() {
  seed = (seed * 16807 + 0) % 2147483647;
  return (seed - 1) / 2147483646;
}
```
The seed update happens first, then the value is taken from the new seed;
we model the update and the value read separately and thread the seed
explicitly. -/

/-- One LCG step: `seed = (seed * 16807 + 0) % 2147483647`. -/
def nextSeed (s : ℕ) : ℕ := (s * 16807 + 0) % 2147483647

/-- The value read from the (already updated) seed:
`(seed - 1) / 2147483646`. -/
def randVal (s : ℕ) : ℚ := ((s : ℚ) - 1) / 2147483646

/-- JavaScript `+x.toFixed(2)`: round to two decimal places. -/
def toFixed2 (x : ℚ) : ℚ := (round (x * 100) : ℚ) / 100

/-! ## Synthetic generator (`fetchFallbackData` in `script.js`) -/

/-- One anchor row `[y, m, d, close, avgDailyVolume]` of the table in
`fetchFallbackData`. -/
structure Anchor where
  y : ℕ
  m : ℕ
  d : ℕ
  close : ℚ
  vol : ℚ

/-- The hard-coded anchor table of `fetchFallbackData`. -/
def anchors : List Anchor := [
  ⟨2020, 9, 30, 9.50, 80e6⟩,
  ⟨2020, 10, 15, 10.20, 65e6⟩,
  ⟨2020, 10, 30, 11.50, 55e6⟩,
  ⟨2020, 11, 15, 17.00, 100e6⟩,
  ⟨2020, 11, 27, 29.00, 150e6⟩,
  ⟨2020, 12, 15, 25.50, 80e6⟩,
  ⟨2020, 12, 31, 23.55, 60e6⟩,
  ⟨2021, 0, 15, 26.00, 90e6⟩,
  ⟨2021, 0, 27, 33.50, 180e6⟩,
  ⟨2021, 1, 10, 29.00, 120e6⟩,
  ⟨2021, 1, 28, 25.20, 80e6⟩,
  ⟨2021, 2, 15, 23.00, 70e6⟩,
  ⟨2021, 3, 15, 22.50, 50e6⟩,
  ⟨2021, 4, 15, 20.00, 45e6⟩,
  ⟨2021, 5, 15, 25.50, 55e6⟩,
  ⟨2021, 6, 15, 22.00, 40e6⟩,
  ⟨2021, 7, 15, 23.80, 38e6⟩,
  ⟨2021, 8, 15, 28.00, 42e6⟩,
  ⟨2021, 9, 15, 24.50, 40e6⟩,
  ⟨2021, 10, 15, 23.50, 60e6⟩,
  ⟨2021, 11, 31, 18.00, 55e6⟩,
  ⟨2022, 0, 15, 14.50, 50e6⟩,
  ⟨2022, 1, 15, 11.50, 55e6⟩,
  ⟨2022, 2, 15, 12.50, 45e6⟩,
  ⟨2022, 3, 15, 11.00, 40e6⟩,
  ⟨2022, 4, 15, 8.00, 65e6⟩,
  ⟨2022, 5, 15, 9.00, 50e6⟩,
  ⟨2022, 6, 15, 9.50, 42e6⟩,
  ⟨2022, 7, 15, 8.60, 40e6⟩,
  ⟨2022, 8, 15, 7.50, 45e6⟩,
  ⟨2022, 9, 15, 8.00, 40e6⟩,
  ⟨2022, 10, 15, 7.80, 38e6⟩,
  ⟨2022, 11, 31, 6.50, 42e6⟩,
  ⟨2023, 0, 15, 7.20, 48e6⟩,
  ⟨2023, 1, 15, 8.80, 90e6⟩,
  ⟨2023, 2, 15, 9.50, 55e6⟩,
  ⟨2023, 3, 15, 10.20, 50e6⟩,
  ⟨2023, 4, 15, 13.50, 80e6⟩,
  ⟨2023, 5, 15, 15.20, 55e6⟩,
  ⟨2023, 6, 15, 17.50, 50e6⟩,
  ⟨2023, 7, 15, 15.80, 60e6⟩,
  ⟨2023, 8, 15, 16.00, 45e6⟩,
  ⟨2023, 9, 15, 16.50, 42e6⟩,
  ⟨2023, 10, 15, 19.00, 55e6⟩,
  ⟨2023, 11, 31, 17.20, 40e6⟩,
  ⟨2024, 0, 15, 17.80, 42e6⟩,
  ⟨2024, 1, 15, 24.50, 95e6⟩,
  ⟨2024, 2, 15, 23.00, 50e6⟩,
  ⟨2024, 3, 15, 22.50, 45e6⟩,
  ⟨2024, 4, 15, 22.80, 60e6⟩,
  ⟨2024, 5, 15, 25.00, 48e6⟩,
  ⟨2024, 6, 15, 27.00, 45e6⟩,
  ⟨2024, 7, 15, 30.00, 50e6⟩,
  ⟨2024, 8, 15, 36.00, 65e6⟩,
  ⟨2024, 9, 15, 42.00, 70e6⟩,
  ⟨2024, 10, 15, 55.00, 120e6⟩,
  ⟨2024, 11, 15, 68.00, 80e6⟩,
  ⟨2024, 11, 31, 75.00, 60e6⟩,
  ⟨2025, 0, 15, 72.00, 55e6⟩,
  ⟨2025, 1, 5, 82.00, 90e6⟩]

/-- The inner `while (current < date2)` loop of `fetchFallbackData` for one
anchor interval: `rem` days remain, `k` is `dayCount` (also the offset of
`current` from the interval start), `s` the current LCG seed.  Weekdays emit
a bar built from six pseudo-random draws; weekend days are skipped.  Returns
the emitted bars and the final seed. -/
def genInterval (c1 c2 v1 v2 : ℚ) (startDay totalDays : ℕ) :
    ℕ → ℕ → ℕ → List Bar × ℕ
  | 0, _, s => ([], s)
  | rem + 1, k, s =>
    let day := startDay + k
    if dow day ≠ 0 ∧ dow day ≠ 6 then
      let t : ℚ := (k : ℚ) / (totalDays : ℚ)
      let interpolated := c1 + (c2 - c1) * t
      let volatility := interpolated * 0.025
      let s1 := nextSeed s
      let noise := (randVal s1 - 0.5) * 2 * volatility
      let close := max (interpolated + noise) 1
      let s2 := nextSeed s1
      let range := close * (0.01 + randVal s2 * 0.02)
      let s3 := nextSeed s2
      let openv := close + (randVal s3 - 0.5) * range
      let s4 := nextSeed s3
      let high := max openv close + randVal s4 * range
      let s5 := nextSeed s4
      let low := min openv close - randVal s5 * range
      let s6 := nextSeed s5
      let volNoise := (randVal s6 - 0.3) * v1 * 0.5
      let volume := max ⌊v1 + (v2 - v1) * t + volNoise⌋ 5000000
      let bar : Bar :=
        ⟨day, toFixed2 openv, toFixed2 high, toFixed2 low, toFixed2 close,
          volume⟩
      let rest := genInterval c1 c2 v1 v2 startDay totalDays rem (k + 1) s6
      (bar :: rest.1, rest.2)
    else
      genInterval c1 c2 v1 v2 startDay totalDays rem (k + 1) s

/-- The outer `for (let i = 0; i < anchors.length - 1; i++)` loop of
`fetchFallbackData`: generate each consecutive anchor interval, threading
the seed. -/
def genAnchors : ℕ → List Anchor → List Bar
  | _, [] => []
  | _, [_] => []
  | s, a1 :: a2 :: rest =>
    let d1 := dayNumber a1.y a1.m a1.d
    let d2 := dayNumber a2.y a2.m a2.d
    let r := genInterval a1.close a2.close a1.vol a2.vol d1 (d2 - d1)
      (d2 - d1) 0 s
    r.1 ++ genAnchors r.2 (a2 :: rest)

/-- `fetchFallbackData`: the synthetic generator run with seed 42 over the
hard-coded anchor table. -/
def fetchFallbackData : List Bar := genAnchors 42 anchors

/-! ## Fetch coordinator (`fetchStockData` in `script.js`)

```js
async function fetchStockData() {
  try { const data = await fetchFromAlphaVantage();
        if (data && data.length > 100) return data; } catch (e) { ... }
  try { const data = await fetchFromYahoo();
        if (data && data.length > 100) return data; } catch (e) { ... }
  return fetchFallbackData();
}
```
Each remote attempt either throws (`Except.error`) or resolves to a series;
the coordinator is a pure function of those two outcomes. -/

/-- Outcome of one remote source: a thrown error or a resolved series. -/
abbrev FetchResult := Except String (List Bar)

/-- `fetchStockData` as a function of the two remote outcomes: accept the
first resolved series longer than 100 bars, otherwise fall through; if
neither remote attempt qualifies, return `fetchFallbackData`. -/
def fetchStockData (av yahoo : FetchResult) : List Bar :=
  match av with
  | .ok data => if data.length > 100 then data else
      match yahoo with
      | .ok data2 => if data2.length > 100 then data2 else fetchFallbackData
      | .error _ => fetchFallbackData
  | .error _ =>
      match yahoo with
      | .ok data2 => if data2.length > 100 then data2 else fetchFallbackData
      | .error _ => fetchFallbackData

/-- A remote attempt "fails" in the sense of the fallback chain: it throws,
or it resolves to a series not longer than the 100-bar viability check. -/
def attemptFails : FetchResult → Prop
  | .ok data => data.length ≤ 100
  | .error _ => True

instance : DecidablePred attemptFails := fun r =>
  match r with
  | .ok _ => inferInstanceAs (Decidable (_ ≤ _))
  | .error _ => inferInstanceAs (Decidable True)

/-! ## Ticker display (`updateTickerDisplay` in `script.js`)

```js
function updateTickerDisplay(meta, data) {
  if (!data || data.length === 0) return;
  const latest = data[data.length - 1];
  const prev = data[data.length - 2] || latest;
  const change = latest.close - prev.close;
  const changePct = (change / prev.close) * 100;
  const isUp = change >= 0;
  ...
}
```
The DOM writes are modelled by the record of values written to the ticker
slots; the early `return` (all slots unchanged) is `none`.  The 52-week and
average-volume slots read the wall clock and are outside this model. -/

/-- The values `updateTickerDisplay` writes into the ticker slots. -/
structure TickerView where
  price : ℚ
  change : ℚ
  changePct : ℚ
  isUp : Bool
  deriving Repr, DecidableEq

/-- `updateTickerDisplay` on `data` (`none` embeds a null argument): `none`
means the guard returned and no slot was written.  `data[len-2] || latest`
is `(l.get? (l.length - 2)).getD latest`: for a single bar `len - 2 = 0`
under truncated subtraction and entry 0 is `latest` itself, which agrees
with the JavaScript `undefined || latest`. -/
def updateTickerDisplay (data : Option (List Bar)) : Option TickerView :=
  match data with
  | none => none
  | some l =>
    if l.length = 0 then none
    else
      let latest := l.getD (l.length - 1) dummyBar
      let prev := (l.get? (l.length - 2)).getD latest
      let change := latest.close - prev.close
      let changePct := change / prev.close * 100
      some ⟨latest.close, change, changePct, decide (0 ≤ change)⟩

/-! ## CSV series parser (second script)

```js
function parseCSV(text) {
  const lines = text.trim().split('\n').slice(1);
  return lines
    .map((line) => {
      const [date, open, high, low, close, volume] = line.split(',');
      return { date, open: Number(open), ..., volume: Number(volume) };
    })
    .filter((d) => d.close > 0 && Number.isFinite(d.close));
}
```
The text splitting and the `Number` coercion of each field are abstracted
into the input records: a `CsvRow` is one data line after splitting, its
numeric fields already carrying the `Number(...)` results, which may be
NaN or infinite (`JsNum`). -/

/-- A JavaScript number as produced by `Number(string)`: NaN, ±Infinity,
or a finite value. -/
inductive JsNum where
  | nan : JsNum
  | inf : JsNum
  | ninf : JsNum
  | fin : ℚ → JsNum
  deriving Repr, DecidableEq

/-- JavaScript `x > 0` (false on NaN). -/
def JsNum.gtZero : JsNum → Bool
  | .nan => false
  | .inf => true
  | .ninf => false
  | .fin q => decide (0 < q)

/-- JavaScript `Number.isFinite`. -/
def JsNum.isFinite : JsNum → Bool
  | .fin _ => true
  | _ => false

/-- One parsed CSV record (fields already `Number`-coerced). -/
structure CsvRow where
  date : String
  open' : JsNum
  high : JsNum
  low : JsNum
  close : JsNum
  volume : JsNum
  deriving Repr, DecidableEq

/-- `parseCSV` at the record level: keep the rows whose close passes
`d.close > 0 && Number.isFinite(d.close)`. -/
def parseCSV (rows : List CsvRow) : List CsvRow :=
  rows.filter (fun d => d.close.gtZero && d.close.isFinite)

/-- The data-dependent part of `loadData`: parse, then signal
`Insufficient data` when fewer than 200 valid records remain.
(The preceding `if (!res.ok) throw ...` transport branch carries no data
and is outside this model.) -/
def loadData (rows : List CsvRow) : Except String (List CsvRow) :=
  let fullSeries := parseCSV rows
  if fullSeries.length < 200 then .error "Insufficient data"
  else .ok fullSeries

/-! ## Metric functions (second script)

`pct` and `calcVolatility` are applied after `loadData`'s filter, so their
bars carry finite numeric closes; they are embedded over `Bar`. -/

/-- `pct(a, b) = ((a - b) / b) * 100`. -/
def pct (a b : ℚ) : ℚ := (a - b) / b * 100

/-- The period-return computation of `loadData`:
`pct(fullSeries[len-1].close, fullSeries[Math.max(0, len-k)].close)` —
percent change of the latest close against the close `k` bars back, or the
earliest bar when the series is shorter. -/
def periodReturn (data : List Bar) (lookback : ℕ) : ℚ :=
  let latest := data.getD (data.length - 1) dummyBar
  let ref := data.getD (data.length - lookback) dummyBar
  pct latest.close ref.close

/-- `calcVolatility(data, lookback = 90)`:
trailing `lookback` bars, consecutive log returns
`tail.slice(1).map((p, i) => Math.log(p.close / tail[i].close))`,
their mean, sample variance with denominator `returns.length - 1`, and
`Math.sqrt(variance) * Math.sqrt(252) * 100`. -/
noncomputable def calcVolatility (data : List Bar) (lookback : ℕ := 90) : ℝ :=
  let tail := data.drop (data.length - lookback)
  let returns := List.zipWith
    (fun p q => Real.log ((p.close : ℝ) / (q.close : ℝ))) tail.tail tail
  let mean := returns.foldl (· + ·) 0 / (returns.length : ℝ)
  let variance := returns.foldl (fun s r => s + (r - mean) ^ 2) 0 /
    ((returns.length : ℝ) - 1)
  Real.sqrt variance * Real.sqrt 252 * 100

/-- Modelled from the spec (§4.4): `annualizedVolatility(series, window)` —
trailing `window` bars, consecutive log returns, sample mean, sample
variance with denominator `n − 1`, result `sqrt(variance × 252) × 100`.
Stated with `List.sum` and `List.map`, to be compared with the source
embedding `calcVolatility`. -/
noncomputable def annualizedVolatility (data : List Bar) (window : ℕ) : ℝ :=
  let tail := data.drop (data.length - window)
  let returns := List.zipWith
    (fun p q => Real.log ((p.close : ℝ) / (q.close : ℝ))) tail.tail tail
  let n := (returns.length : ℝ)
  let mean := returns.sum / n
  let variance := ((returns.map (fun r => (r - mean) ^ 2)).sum) / (n - 1)
  Real.sqrt (variance * 252) * 100

/-! ## Scenario calculator (second script)

```js
function updateTargetFromMultiple() {
  const multiple = Number(slider.value);
  const revenue2027 = 8.5e9;
  const netCashAdj = 4.0e9;
  const shares = 2.3e9;
  const implied = ((revenue2027 * multiple + netCashAdj) / shares).toFixed(2);
  impliedPriceEl.textContent = `$${implied}`;
}
```
-/

/-- The implied-price value `updateTargetFromMultiple` displays for a given
slider multiple (constants as in the source). -/
def updateTargetFromMultiple (multiple : ℚ) : ℚ :=
  let revenue2027 : ℚ := 8.5e9
  let netCashAdj : ℚ := 4.0e9
  let shares : ℚ := 2.3e9
  toFixed2 ((revenue2027 * multiple + netCashAdj) / shares)

/-- Modelled from the spec (§4.4): `impliedPrice(revenueMultiple,
projectedRevenue, netCashAdjustment, sharesOutstanding)` =
`(projectedRevenue × revenueMultiple + netCashAdjustment) /
sharesOutstanding`, rounded to 2 decimals. -/
def impliedPrice (revenueMultiple projectedRevenue netCashAdjustment
    sharesOutstanding : ℚ) : ℚ :=
  toFixed2 ((projectedRevenue * revenueMultiple + netCashAdjustment) /
    sharesOutstanding)

/-! ## AlphaVantage series parser (`fetchFromAlphaVantage` in `script.js`)

```js
const data = Object.entries(ts).map(([dateStr, vals]) => ({
  date: new Date(dateStr),
  open: parseFloat(vals['1. open']),
  ...
  volume: parseInt(vals['5. volume'], 10),
})).sort((a, b) => a.date - b.date);
```
The network fetch, the per-field `parseFloat`/`parseInt` coercions and the
`STATE` write are outside the model: the input is the entry list already
mapped to bars, one per key of the JSON object (`JSON.parse` keeps only
the last-seen value for a duplicated key, so these entries carry
pairwise-distinct dates), and the embedded step is the ascending sort by
date.  JavaScript's `sort` is stable and `(a, b) => a.date - b.date`
orders ascending by date; it is embedded as a stable merge sort with the
`≤` comparison on day numbers. -/

/-- The series construction of `fetchFromAlphaVantage`: sort the mapped
entries ascending by date. -/
def fetchFromAlphaVantage (entries : List Bar) : List Bar :=
  entries.mergeSort (fun a b => decide (a.date ≤ b.date))

/-- The LCG seed invariant: the seed stays in `[1, 2147483646]` (it never
hits 0 because 2147483647 is prime), which keeps every `randVal` draw in
`[0, 1)`. -/
def SeedOK (s : ℕ) : Prop := 1 ≤ s ∧ s ≤ 2147483646

/-- The bar invariant maintained by the synthetic generator. -/
def GoodBar (b : Bar) : Prop :=
  dow b.date ≠ 0 ∧ dow b.date ≠ 6 ∧
  0 < b.low ∧ b.low ≤ b.open' ∧ b.open' ≤ b.high ∧
  b.low ≤ b.close ∧ b.close ≤ b.high ∧ 5000000 ≤ b.volume

/-- The two-anchor table of the C9 experiment: day0 = 2021-06-02 (a
Wednesday, so that the midpoint day0+5 is a business day), day10 ten days
later, closes 10.0 and 20.0, volumes 1e6 and 2e6. -/
def midpointAnchors : List Anchor :=
  [⟨2021, 5, 2, 10, 1e6⟩, ⟨2021, 5, 12, 20, 2e6⟩]

/-! ## Helper lemmas -/

/-- The close filter of `parseCSV` keeps a value exactly when it is a
finite positive number. -/
theorem closeKept_iff (n : JsNum) :
    (n.gtZero && n.isFinite) = true ↔ ∃ q : ℚ, n = .fin q ∧ 0 < q := by
  cases n <;> simp [JsNum.gtZero, JsNum.isFinite]

/-- The head of the synthetic series is a member of it. -/
theorem fallback_headD_mem :
    fetchFallbackData.headD dummyBar ∈ fetchFallbackData := by
  have h : fetchFallbackData ≠ [] := by decide
  cases hl : fetchFallbackData with
  | nil => exact absurd hl h
  | cons a l => simp

/-! ## Claim theorems -/

/-- C1: if both remote sources fail (throw, or resolve to a series not
longer than the 100-bar viability check), `fetchStockData` returns exactly
the synthetic generator's output, which is a non-empty series; the
coordinator is a total function and exposes no error path. -/
theorem fetchStockData_fallback (av yahoo : FetchResult)
    (hav : attemptFails av) (hyh : attemptFails yahoo) :
    fetchStockData av yahoo = fetchFallbackData ∧
      fetchStockData av yahoo ≠ [] := by
  have hfb : fetchFallbackData ≠ [] := by decide
  have heq : fetchStockData av yahoo = fetchFallbackData := by
    cases av with
    | ok d =>
      simp only [attemptFails] at hav
      cases yahoo with
      | ok d2 =>
        simp only [attemptFails] at hyh
        simp [fetchStockData, Nat.not_lt.mpr hav, Nat.not_lt.mpr hyh]
      | error e => simp [fetchStockData, Nat.not_lt.mpr hav]
    | error e =>
      cases yahoo with
      | ok d2 =>
        simp only [attemptFails] at hyh
        simp [fetchStockData, Nat.not_lt.mpr hyh]
      | error e2 => simp [fetchStockData]
  exact ⟨heq, heq ▸ hfb⟩

/-- Witness for C1 at two concrete thrown errors. -/
theorem fetchStockData_fallback_witness :
    attemptFails (Except.error "HTTP 404") ∧
      attemptFails (Except.error "HTTP 500") ∧
      fetchStockData (Except.error "HTTP 404") (Except.error "HTTP 500") =
        fetchFallbackData ∧
      fetchStockData (Except.error "HTTP 404") (Except.error "HTTP 500") ≠
        [] :=
  ⟨trivial, trivial,
    (fetchStockData_fallback (Except.error "HTTP 404")
      (Except.error "HTTP 500") trivial trivial).1,
    (fetchStockData_fallback (Except.error "HTTP 404")
      (Except.error "HTTP 500") trivial trivial).2⟩

/-- C2: the synthetic generator is deterministic — two invocations with the
same seed (42) and the same anchor table produce identical bar sequences,
element by element (the embedding threads the seed explicitly, so the
generator is a pure function of seed and anchor table). -/
theorem fetchFallbackData_deterministic (i : ℕ) :
    (genAnchors 42 anchors).get? i = fetchFallbackData.get? i := rfl

/-- C3 counterexample: `parseCSV` performs no reordering, so a payload
whose (valid) records are not date-sorted yields an unsorted series. -/
theorem parseCSV_unsorted_counterexample :
    ¬ (parseCSV
        [⟨"2020-01-02", .fin 1, .fin 1, .fin 1, .fin 1, .fin 1⟩,
         ⟨"2020-01-01", .fin 1, .fin 1, .fin 1, .fin 1, .fin 1⟩]).Pairwise
      (fun a b => a.date.data < b.date.data) := by
  decide

/-- C3 (amended): each series parser's output is strictly ascending by
date with no duplicate dates under that parser's actual input discipline.
`fetchFromAlphaVantage` sorts its entries ascending by date, and its
entries have pairwise-distinct dates (`JSON.parse` keeps only the
last-seen value per duplicated key), so its output is strictly ascending
with no duplicate dates.  `parseCSV` neither reorders nor deduplicates,
so its output is strictly ascending exactly when the raw payload's
records already are — which the upstream CSV source delivers. -/
theorem seriesParser_sorted (rows : List CsvRow) (entries : List Bar)
    (hrows : rows.Pairwise (fun a b => a.date.data < b.date.data))
    (hdates : (entries.map Bar.date).Nodup) :
    (parseCSV rows).Pairwise (fun a b => a.date.data < b.date.data) ∧
    (fetchFromAlphaVantage entries).Pairwise
      (fun a b => a.date < b.date) := by
  refine ⟨hrows.filter _, ?_⟩
  have hle : (entries.mergeSort
      (fun a b => decide (a.date ≤ b.date))).Pairwise
      (fun a b => decide (a.date ≤ b.date) = true) :=
    List.sorted_mergeSort
      (fun a b c hab hbc => by
        simp only [decide_eq_true_eq] at *
        omega)
      (fun a b => by
        rcases Nat.le_total a.date b.date with h | h <;> simp [h])
      entries
  have hperm : List.Perm
      (entries.mergeSort (fun a b => decide (a.date ≤ b.date))) entries :=
    List.mergeSort_perm entries _
  have hnd : ((entries.mergeSort
      (fun a b => decide (a.date ≤ b.date))).map Bar.date).Nodup :=
    ((hperm.map Bar.date).nodup_iff).mpr hdates
  have hne : (entries.mergeSort
      (fun a b => decide (a.date ≤ b.date))).Pairwise
      (fun a b => a.date ≠ b.date) := List.pairwise_map.mp hnd
  refine (hle.and hne).imp ?_
  intro a b hab
  have h1 := hab.1
  simp only [decide_eq_true_eq] at h1
  omega

/-- Witness for the amended C3: a concrete sorted CSV payload and a
concrete distinct-date entry list (given out of order, so the sort is
exercised). -/
theorem seriesParser_sorted_witness :
    (([⟨"2020-01-01", .fin 1, .fin 1, .fin 1, .fin 1, .fin 1⟩,
       ⟨"2020-01-02", .fin 1, .fin 1, .fin 1, .fin 1, .fin 1⟩] :
        List CsvRow).Pairwise (fun a b => a.date.data < b.date.data)) ∧
    ((([⟨1, 2, 2, 2, 2, 1⟩, ⟨0, 1, 1, 1, 1, 1⟩] :
        List Bar).map Bar.date).Nodup) ∧
    (parseCSV
      [⟨"2020-01-01", .fin 1, .fin 1, .fin 1, .fin 1, .fin 1⟩,
       ⟨"2020-01-02", .fin 1, .fin 1, .fin 1, .fin 1, .fin 1⟩]).Pairwise
      (fun a b => a.date.data < b.date.data) ∧
    (fetchFromAlphaVantage [⟨1, 2, 2, 2, 2, 1⟩, ⟨0, 1, 1, 1, 1, 1⟩]).Pairwise
      (fun a b => a.date < b.date) :=
  ⟨by decide, by decide,
   (seriesParser_sorted
     [⟨"2020-01-01", .fin 1, .fin 1, .fin 1, .fin 1, .fin 1⟩,
      ⟨"2020-01-02", .fin 1, .fin 1, .fin 1, .fin 1, .fin 1⟩]
     [⟨1, 2, 2, 2, 2, 1⟩, ⟨0, 1, 1, 1, 1, 1⟩]
     (by decide) (by decide)).1,
   (seriesParser_sorted
     [⟨"2020-01-01", .fin 1, .fin 1, .fin 1, .fin 1, .fin 1⟩,
      ⟨"2020-01-02", .fin 1, .fin 1, .fin 1, .fin 1, .fin 1⟩]
     [⟨1, 2, 2, 2, 2, 1⟩, ⟨0, 1, 1, 1, 1, 1⟩]
     (by decide) (by decide)).2⟩

/-- C4: `parseCSV` drops exactly the records whose close is non-positive
or non-finite; `loadData` signals `Insufficient data` exactly when fewer
than 200 valid records remain; and every bar of an accepted series has a
positive finite close. -/
theorem parseCSV_loadData_contract (rows : List CsvRow) :
    (∀ b, b ∈ parseCSV rows ↔
      b ∈ rows ∧ ∃ q : ℚ, b.close = .fin q ∧ 0 < q) ∧
    (loadData rows = .error "Insufficient data" ↔
      (parseCSV rows).length < 200) ∧
    (∀ s, loadData rows = .ok s →
      ∀ b ∈ s, ∃ q : ℚ, b.close = .fin q ∧ 0 < q) := by
  refine ⟨fun b => ?_, ?_, fun s hs b hb => ?_⟩
  · rw [parseCSV, List.mem_filter, closeKept_iff]
  · simp only [loadData]
    split_ifs with h
    · simp [h]
    · simp [h]
  · simp only [loadData] at hs
    by_cases h : (parseCSV rows).length < 200
    · rw [if_pos h] at hs
      cases hs
    · rw [if_neg h] at hs
      cases hs
      rw [parseCSV] at hb
      exact (closeKept_iff _).mp (List.mem_filter.mp hb).2

/-- On a doubled close, `pct` returns exactly 100. -/
theorem pct_double (r : ℚ) (hr : r ≠ 0) : pct (2 * r) r = 100 := by
  rw [pct]
  field_simp
  ring

/-- C6: `periodReturn` equals `(latest − ref)/ref × 100` where `ref` is the
close `lookback` bars back (clamped to the earliest bar), and on a series
whose close exactly doubles over the lookback it returns 100. -/
theorem periodReturn_correct (data : List Bar) (lookback : ℕ)
    (_hne : data ≠ []) :
    periodReturn data lookback =
      ((data.getD (data.length - 1) dummyBar).close -
          (data.getD (data.length - lookback) dummyBar).close) /
        (data.getD (data.length - lookback) dummyBar).close * 100 ∧
    (0 < (data.getD (data.length - lookback) dummyBar).close →
      (data.getD (data.length - 1) dummyBar).close =
        2 * (data.getD (data.length - lookback) dummyBar).close →
      periodReturn data lookback = 100) := by
  constructor
  · rfl
  · intro hpos hdouble
    have hdef : periodReturn data lookback =
        pct (data.getD (data.length - 1) dummyBar).close
          (data.getD (data.length - lookback) dummyBar).close := rfl
    rw [hdef, hdouble]
    exact pct_double _ (ne_of_gt hpos)

/-- Witness for C6: on a two-bar series whose close doubles, the period
return is 100. -/
theorem periodReturn_correct_witness :
    ([⟨0, 5, 5, 5, 5, 1⟩, ⟨1, 10, 10, 10, 10, 1⟩] : List Bar) ≠ [] ∧
    periodReturn [⟨0, 5, 5, 5, 5, 1⟩, ⟨1, 10, 10, 10, 10, 1⟩] 2 = 100 := by
  refine ⟨by decide, ?_⟩
  exact (periodReturn_correct [⟨0, 5, 5, 5, 5, 1⟩, ⟨1, 10, 10, 10, 10, 1⟩] 2
    (by decide)).2 (by norm_num) (by norm_num)

/-- C7: the scenario calculator agrees with the spec's
`impliedPrice(revenueMultiple, projectedRevenue, netCashAdjustment,
sharesOutstanding)` at the source constants, and
`impliedPrice(24, 8.5e9, 4.0e9, 2.3e9) = 90.43`.  It takes no series
argument, so it is independent of the series. -/
theorem impliedPrice_correct :
    (∀ m : ℚ, updateTargetFromMultiple m = impliedPrice m 8.5e9 4.0e9 2.3e9) ∧
    impliedPrice 24 8.5e9 4.0e9 2.3e9 = 90.43 := by
  refine ⟨fun m => rfl, ?_⟩
  have h : (8.5e9 * 24 + 4.0e9) / (2.3e9 : ℚ) * 100 = 208000 / 23 := by
    norm_num
  rw [impliedPrice, toFixed2, h]
  norm_num [round_eq]

/-- C10: `updateTickerDisplay` is total at its boundary: a null or empty
series is a no-op (no slot written), and a single-bar series uses the bar
as its own previous bar, displaying a day change of 0 and a percent change
of 0. -/
theorem updateTickerDisplay_total (b : Bar) (_hb : b.close ≠ 0) :
    updateTickerDisplay none = none ∧
    updateTickerDisplay (some []) = none ∧
    updateTickerDisplay (some [b]) = some ⟨b.close, 0, 0, true⟩ := by
  refine ⟨rfl, rfl, ?_⟩
  simp [updateTickerDisplay]

/-- Witness for C10 at a concrete single-bar series. -/
theorem updateTickerDisplay_total_witness :
    ((⟨0, 5, 5, 5, 5, 1⟩ : Bar).close ≠ 0) ∧
    updateTickerDisplay (some [⟨0, 5, 5, 5, 5, 1⟩]) =
      some ⟨5, 0, 0, true⟩ :=
  ⟨by norm_num, (updateTickerDisplay_total ⟨0, 5, 5, 5, 5, 1⟩
    (by norm_num)).2.2⟩

/-- The consecutive log returns of a series whose closes all equal a fixed
nonzero `c` are all zero. -/
theorem logReturns_const (c : ℚ) (hc : c ≠ 0) :
    ∀ (l : List Bar), (∀ b ∈ l, b.close = c) →
    ∀ x ∈ List.zipWith
      (fun p q => Real.log ((p.close : ℝ) / (q.close : ℝ))) l.tail l, x = 0 := by
  intro l
  induction l with
  | nil => intro _ x hx; simp at hx
  | cons a t ih =>
    intro h x hx
    cases t with
    | nil => simp at hx
    | cons b t2 =>
      rw [List.tail_cons, List.zipWith_cons_cons] at hx
      rcases List.mem_cons.mp hx with hx | hx
      · subst hx
        rw [h b (by simp), h a (by simp),
          div_self (by exact_mod_cast hc), Real.log_one]
      · exact ih (fun b' hb' => h b' (List.mem_cons_of_mem a hb')) x hx

/-- The two volatility formulas — fold-based with separated square roots
(the source) and sum-based with a single square root (the spec) — agree on
any list of at least 2 returns. -/
theorem vol_formula (R : List ℝ) (h2 : 2 ≤ R.length) :
    Real.sqrt (R.foldl
        (fun s r => s + (r - R.foldl (· + ·) 0 / (R.length : ℝ)) ^ 2) 0 /
        ((R.length : ℝ) - 1)) * Real.sqrt 252 * 100 =
    Real.sqrt ((R.map (fun r => (r - R.sum / (R.length : ℝ)) ^ 2)).sum /
        ((R.length : ℝ) - 1) * 252) * 100 := by
  have hmean : R.foldl (· + ·) 0 = R.sum := List.sum_eq_foldl.symm
  have hfold : ∀ m : ℝ, R.foldl (fun s r => s + (r - m) ^ 2) 0 =
      (R.map (fun r => (r - m) ^ 2)).sum := by
    intro m
    rw [List.sum_eq_foldl, List.foldl_map]
  have hnum : (0 : ℝ) ≤
      (R.map (fun r => (r - R.sum / (R.length : ℝ)) ^ 2)).sum :=
    List.sum_nonneg (by
      intro x hx
      rcases List.mem_map.mp hx with ⟨r, _, rfl⟩
      positivity)
  have hden : (0 : ℝ) ≤ (R.length : ℝ) - 1 := by
    have : (2 : ℝ) ≤ (R.length : ℝ) := by exact_mod_cast h2
    linarith
  rw [hmean, hfold (R.sum / (R.length : ℝ)),
    Real.sqrt_mul (div_nonneg hnum hden) 252]

/-- The fold-based volatility formula evaluates to 0 when every return is
zero. -/
theorem vol_zero (R : List ℝ) (hall : ∀ x ∈ R, x = 0) :
    Real.sqrt (R.foldl
        (fun s r => s + (r - R.foldl (· + ·) 0 / (R.length : ℝ)) ^ 2) 0 /
        ((R.length : ℝ) - 1)) * Real.sqrt 252 * 100 = 0 := by
  have h0 : R.foldl (· + ·) 0 = 0 := by
    rw [← List.sum_eq_foldl]
    exact List.sum_eq_zero hall
  rw [h0]
  simp only [zero_div, sub_zero]
  have hfold : R.foldl (fun s r => s + r ^ 2) 0 =
      (R.map (fun r => r ^ 2)).sum := by
    rw [List.sum_eq_foldl, List.foldl_map]
  have hmap : (R.map (fun r => r ^ 2)).sum = 0 := List.sum_eq_zero (by
    intro x hx
    rcases List.mem_map.mp hx with ⟨r, hr, rfl⟩
    rw [hall r hr]
    norm_num)
  rw [hfold, hmap, zero_div, Real.sqrt_zero, zero_mul, zero_mul]

/-- C5: `calcVolatility` with window 90 computes exactly the spec's
`annualizedVolatility` (trailing window, consecutive log returns, sample
mean and sample variance with denominator n−1, `sqrt(variance × 252) ×
100`), and on a series of at least 3 identical positive closes it returns
0. -/
theorem calcVolatility_correct (data : List Bar) (h3 : 3 ≤ data.length) :
    calcVolatility data 90 = annualizedVolatility data 90 ∧
    ∀ c : ℚ, 0 < c → (∀ b ∈ data, b.close = c) →
      calcVolatility data 90 = 0 := by
  have hlen2 : 2 ≤ (List.zipWith
      (fun p q => Real.log ((p.close : ℝ) / (q.close : ℝ)))
      (data.drop (data.length - 90)).tail
      (data.drop (data.length - 90))).length := by
    rw [List.length_zipWith, List.length_tail, List.length_drop]
    omega
  constructor
  · simp only [calcVolatility, annualizedVolatility]
    exact vol_formula _ hlen2
  · intro c hc hconst
    have hzero := logReturns_const c (ne_of_gt hc)
      (data.drop (data.length - 90))
      (fun b hb => hconst b (List.mem_of_mem_drop hb))
    simp only [calcVolatility]
    exact vol_zero _ hzero

/-- Witness for C5: a three-bar series of identical closes has volatility
exactly 0. -/
theorem calcVolatility_correct_witness :
    3 ≤ ([⟨0, 5, 5, 5, 5, 1⟩, ⟨1, 5, 5, 5, 5, 1⟩, ⟨2, 5, 5, 5, 5, 1⟩] :
      List Bar).length ∧
    calcVolatility [⟨0, 5, 5, 5, 5, 1⟩, ⟨1, 5, 5, 5, 5, 1⟩,
      ⟨2, 5, 5, 5, 5, 1⟩] 90 = 0 := by
  refine ⟨by decide, ?_⟩
  refine (calcVolatility_correct _ (by decide)).2 5 (by norm_num) ?_
  intro b hb
  simp only [List.mem_cons, List.not_mem_nil, or_false] at hb
  rcases hb with rfl | rfl | rfl <;> rfl

/-! ## Machinery for the synthetic-generator invariants (C8, C9) -/

/-- The LCG modulus 2^31 − 1 is coprime to the multiplier 16807 = 7^5. -/
theorem lcgModulus_coprime : Nat.Coprime 2147483647 16807 := by decide

/-- The LCG step preserves the seed invariant. -/
theorem nextSeed_ok {s : ℕ} (h : SeedOK s) : SeedOK (nextSeed s) := by
  obtain ⟨h1, h2⟩ := h
  unfold nextSeed
  constructor
  · rcases Nat.eq_zero_or_pos ((s * 16807 + 0) % 2147483647) with h0 | h0
    · exfalso
      rw [Nat.add_zero] at h0
      have hdvd : 2147483647 ∣ s * 16807 := Nat.dvd_of_mod_eq_zero h0
      have hds : 2147483647 ∣ s :=
        (Nat.Coprime.dvd_of_dvd_mul_right lcgModulus_coprime) hdvd
      have := Nat.le_of_dvd (by omega) hds
      omega
    · exact h0
  · have := Nat.mod_lt (s * 16807 + 0) (show 0 < 2147483647 by norm_num)
    omega

/-- Under the seed invariant every pseudo-random value lies in `[0, 1)`. -/
theorem randVal_bounds {s : ℕ} (h : SeedOK s) :
    0 ≤ randVal s ∧ randVal s < 1 := by
  obtain ⟨h1, h2⟩ := h
  have hs1 : (1 : ℚ) ≤ (s : ℚ) := by exact_mod_cast h1
  have hs2 : (s : ℚ) ≤ 2147483646 := by exact_mod_cast h2
  unfold randVal
  constructor
  · apply div_nonneg (by linarith) (by norm_num)
  · rw [div_lt_one (by norm_num)]
    linarith

/-- `toFixed2` is monotone. -/
theorem toFixed2_mono {a b : ℚ} (h : a ≤ b) : toFixed2 a ≤ toFixed2 b := by
  unfold toFixed2
  have : round (a * 100) ≤ round (b * 100) := by
    rw [round_eq, round_eq]
    exact Int.floor_mono (by linarith)
  rw [div_le_div_iff_of_pos_right (by norm_num : (0:ℚ) < 100)]
  exact_mod_cast this

/-- Strict upper cutoff for `toFixed2`: if `x * 100 + 1/2 < n` for an
integer `n` then `toFixed2 x ≤ (n − 1)/100`. -/
theorem toFixed2_lt_cutoff {x : ℚ} {n : ℤ} (h : x * 100 + 1 / 2 < (n : ℚ)) :
    toFixed2 x ≤ ((n : ℚ) - 1) / 100 := by
  unfold toFixed2
  have hfl : round (x * 100) < n := by
    rw [round_eq]
    exact Int.floor_lt.mpr h
  have hle : (round (x * 100) : ℚ) ≤ (n : ℚ) - 1 := by
    have : round (x * 100) ≤ n - 1 := by omega
    exact_mod_cast this
  rw [div_le_div_iff_of_pos_right (by norm_num : (0:ℚ) < 100)]
  exact hle


/-- Bounds for one emitted bar's rounded prices: given the unrounded close
(at least 1, thanks to the `Math.max(…, 1)` clamp) and the four
pseudo-random draws in `[0, 1)`, the rounded low is positive and the
rounded low/open/close/high respect the OHLC ordering. -/
theorem barPrice_good (close r2 r3 r4 r5 range openv high low : ℚ)
    (hclose : 1 ≤ close)
    (h2 : 0 ≤ r2 ∧ r2 < 1) (h3 : 0 ≤ r3 ∧ r3 < 1)
    (h4 : 0 ≤ r4 ∧ r4 < 1) (h5 : 0 ≤ r5 ∧ r5 < 1)
    (hrange : range = close * (0.01 + r2 * 0.02))
    (hopen : openv = close + (r3 - 0.5) * range)
    (hhigh : high = max openv close + r4 * range)
    (hlow : low = min openv close - r5 * range) :
    0 < toFixed2 low ∧ toFixed2 low ≤ toFixed2 openv ∧
    toFixed2 openv ≤ toFixed2 high ∧ toFixed2 low ≤ toFixed2 close ∧
    toFixed2 close ≤ toFixed2 high := by
  obtain ⟨h2a, h2b⟩ := h2
  obtain ⟨h3a, h3b⟩ := h3
  obtain ⟨h4a, h4b⟩ := h4
  obtain ⟨h5a, h5b⟩ := h5
  have hcpos : 0 < close := by linarith
  have hrpos : 0 < range := by
    rw [hrange]
    apply mul_pos hcpos
    nlinarith
  have hrlt : range < 3 / 100 * close := by
    rw [hrange]
    nlinarith
  have hopen_lb : close - range / 2 ≤ openv := by
    rw [hopen]
    nlinarith
  have hmin_lb : close - range / 2 ≤ min openv close :=
    le_min hopen_lb (by linarith)
  have hlow_le_open : low ≤ openv := by
    rw [hlow]
    have hm : min openv close ≤ openv := min_le_left _ _
    nlinarith [mul_nonneg h5a (le_of_lt hrpos)]
  have hlow_le_close : low ≤ close := by
    rw [hlow]
    have hm : min openv close ≤ close := min_le_right _ _
    nlinarith [mul_nonneg h5a (le_of_lt hrpos)]
  have hopen_le_high : openv ≤ high := by
    rw [hhigh]
    have hm : openv ≤ max openv close := le_max_left _ _
    nlinarith [mul_nonneg h4a (le_of_lt hrpos)]
  have hclose_le_high : close ≤ high := by
    rw [hhigh]
    have hm : close ≤ max openv close := le_max_right _ _
    nlinarith [mul_nonneg h4a (le_of_lt hrpos)]
  have hlow_lb : 191 / 200 ≤ low := by
    rw [hlow]
    have hr5 : r5 * range ≤ range := by nlinarith
    have hstep : close - range / 2 - range ≤ min openv close - r5 * range :=
      by linarith
    nlinarith
  refine ⟨?_, toFixed2_mono hlow_le_open, toFixed2_mono hopen_le_high,
    toFixed2_mono hlow_le_close, toFixed2_mono hclose_le_high⟩
  have hm := toFixed2_mono hlow_lb
  have hv : toFixed2 ((191 : ℚ) / 200) = 24 / 25 := by
    unfold toFixed2
    norm_num [round_eq]
  rw [hv] at hm
  linarith

/-- A bar assembled the way `fetchFallbackData` assembles one — prices
rounded by `toFixed2`, volume already floored at 5e6 — satisfies the bar
invariant. -/
theorem emittedBar_good (day : ℕ) (hd0 : dow day ≠ 0) (hd6 : dow day ≠ 6)
    (close r2 r3 r4 r5 range openv high low : ℚ) (vol : ℤ)
    (hclose : 1 ≤ close)
    (h2 : 0 ≤ r2 ∧ r2 < 1) (h3 : 0 ≤ r3 ∧ r3 < 1)
    (h4 : 0 ≤ r4 ∧ r4 < 1) (h5 : 0 ≤ r5 ∧ r5 < 1)
    (hrange : range = close * (0.01 + r2 * 0.02))
    (hopen : openv = close + (r3 - 0.5) * range)
    (hhigh : high = max openv close + r4 * range)
    (hlow : low = min openv close - r5 * range)
    (hvol : 5000000 ≤ vol) :
    GoodBar ⟨day, toFixed2 openv, toFixed2 high, toFixed2 low,
      toFixed2 close, vol⟩ := by
  have hbp := barPrice_good close r2 r3 r4 r5 range openv high low
    hclose h2 h3 h4 h5 hrange hopen hhigh hlow
  exact ⟨hd0, hd6, hbp.1, hbp.2.1, hbp.2.2.1, hbp.2.2.2.1, hbp.2.2.2.2,
    hvol⟩

/-- Every bar emitted by one interval of the generator satisfies the bar
invariant, and the final seed again satisfies the seed invariant. -/
theorem genInterval_good (c1 c2 v1 v2 : ℚ) (startDay totalDays : ℕ) :
    ∀ (rem k s : ℕ), SeedOK s →
      (∀ b ∈ (genInterval c1 c2 v1 v2 startDay totalDays rem k s).1,
        GoodBar b) ∧
      SeedOK (genInterval c1 c2 v1 v2 startDay totalDays rem k s).2 := by
  intro rem
  induction rem with
  | zero =>
    intro k s hs
    exact ⟨by simp [genInterval], hs⟩
  | succ n ih =>
    intro k s hs
    by_cases hdow : dow (startDay + k) ≠ 0 ∧ dow (startDay + k) ≠ 6
    · have hs1 := nextSeed_ok hs
      have hs2 := nextSeed_ok hs1
      have hs3 := nextSeed_ok hs2
      have hs4 := nextSeed_ok hs3
      have hs5 := nextSeed_ok hs4
      have hs6 := nextSeed_ok hs5
      have hrest := ih (k + 1)
        (nextSeed (nextSeed (nextSeed (nextSeed (nextSeed (nextSeed s))))))
        hs6
      simp only [genInterval, if_pos hdow]
      constructor
      · intro b hb
        rcases List.mem_cons.mp hb with rfl | hb
        · exact emittedBar_good _ hdow.1 hdow.2 _ _ _ _ _ _ _ _ _ _
            (le_max_right _ 1)
            (randVal_bounds hs2) (randVal_bounds hs3)
            (randVal_bounds hs4) (randVal_bounds hs5)
            rfl rfl rfl rfl (le_max_right _ _)
        · exact hrest.1 b hb
      · exact hrest.2
    · simp only [genInterval, if_neg hdow]
      exact ih (k + 1) s hs

/-- Every bar produced by the outer anchor loop satisfies the bar
invariant. -/
theorem genAnchors_good :
    ∀ (l : List Anchor) (s : ℕ), SeedOK s →
      ∀ b ∈ genAnchors s l, GoodBar b := by
  intro l
  induction l with
  | nil => intro s _ b hb; simp [genAnchors] at hb
  | cons a1 t ih =>
    intro s hs b hb
    cases t with
    | nil => simp [genAnchors] at hb
    | cons a2 rest =>
      simp only [genAnchors] at hb
      rcases List.mem_append.mp hb with hb | hb
      · exact (genInterval_good _ _ _ _ _ _ _ _ _ hs).1 b hb
      · exact ih _ ((genInterval_good a1.close a2.close a1.vol a2.vol
          (dayNumber a1.y a1.m a1.d)
          (dayNumber a2.y a2.m a2.d - dayNumber a1.y a1.m a1.d)
          (dayNumber a2.y a2.m a2.d - dayNumber a1.y a1.m a1.d) 0 s hs).2)
          b hb

/-- C8: every bar produced by the synthetic generator falls on a weekday
(never Saturday = 6 or Sunday = 0), satisfies `low ≤ open ≤ high` and
`low ≤ close ≤ high`, has positive (finite, being rational) prices, and an
integral volume of at least the 5e6 floor constant. -/
theorem fetchFallbackData_invariants (b : Bar)
    (hb : b ∈ fetchFallbackData) :
    dow b.date ≠ 0 ∧ dow b.date ≠ 6 ∧
    b.low ≤ b.open' ∧ b.open' ≤ b.high ∧
    b.low ≤ b.close ∧ b.close ≤ b.high ∧
    0 < b.low ∧ 0 < b.open' ∧ 0 < b.close ∧ 0 < b.high ∧
    5000000 ≤ b.volume := by
  have hg := genAnchors_good anchors 42 ⟨by norm_num, by norm_num⟩ b hb
  obtain ⟨d0, d6, lpos, lo, oh, lc, ch, vol⟩ := hg
  exact ⟨d0, d6, lo, oh, lc, ch, lpos, lt_of_lt_of_le lpos lo,
    lt_of_lt_of_le lpos lc, lt_of_lt_of_le (lt_of_lt_of_le lpos lc) ch, vol⟩

/-- Witness for C8 at the first generated bar. -/
theorem fetchFallbackData_invariants_witness :
    fetchFallbackData ≠ [] ∧
    (dow (fetchFallbackData.headD dummyBar).date ≠ 0 ∧
     dow (fetchFallbackData.headD dummyBar).date ≠ 6 ∧
     (fetchFallbackData.headD dummyBar).low ≤
       (fetchFallbackData.headD dummyBar).open' ∧
     (fetchFallbackData.headD dummyBar).open' ≤
       (fetchFallbackData.headD dummyBar).high ∧
     (fetchFallbackData.headD dummyBar).low ≤
       (fetchFallbackData.headD dummyBar).close ∧
     (fetchFallbackData.headD dummyBar).close ≤
       (fetchFallbackData.headD dummyBar).high ∧
     0 < (fetchFallbackData.headD dummyBar).low ∧
     0 < (fetchFallbackData.headD dummyBar).open' ∧
     0 < (fetchFallbackData.headD dummyBar).close ∧
     0 < (fetchFallbackData.headD dummyBar).high ∧
     5000000 ≤ (fetchFallbackData.headD dummyBar).volume) :=
  ⟨by decide, fetchFallbackData_invariants _ fallback_headD_mem⟩

/-- The dates emitted by one generator interval are exactly the weekdays
among the day numbers `[startDay+k, startDay+k+rem)`, independently of the
seed. -/
theorem genInterval_dates (c1 c2 v1 v2 : ℚ) (startDay totalDays : ℕ) :
    ∀ (rem k s : ℕ),
      ((genInterval c1 c2 v1 v2 startDay totalDays rem k s).1.map Bar.date) =
      (List.range' (startDay + k) rem).filter
        (fun d => decide (dow d ≠ 0) && decide (dow d ≠ 6)) := by
  intro rem
  induction rem with
  | zero => intro k s; simp [genInterval]
  | succ n ih =>
    intro k s
    rw [List.range'_succ]
    by_cases hdow : dow (startDay + k) ≠ 0 ∧ dow (startDay + k) ≠ 6
    · have hp : (decide (dow (startDay + k) ≠ 0) &&
          decide (dow (startDay + k) ≠ 6)) = true := by
        simp [hdow.1, hdow.2]
      have hfil : (List.filter
            (fun d => decide (dow d ≠ 0) && decide (dow d ≠ 6))
            ((startDay + k) :: List.range' (startDay + k + 1) n)) =
          (startDay + k) :: List.filter
            (fun d => decide (dow d ≠ 0) && decide (dow d ≠ 6))
            (List.range' (startDay + k + 1) n) := by
        rw [List.filter_cons, hp]
        simp
      simp only [genInterval, if_pos hdow, List.map_cons]
      rw [hfil]
      exact congrArg _ (ih (k + 1) _)
    · have hp : (decide (dow (startDay + k) ≠ 0) &&
          decide (dow (startDay + k) ≠ 6)) = false := by
        rcases Decidable.not_and_iff_or_not.mp hdow with h | h <;>
          simp [Decidable.not_not.mp h]
      have hfil : (List.filter
            (fun d => decide (dow d ≠ 0) && decide (dow d ≠ 6))
            ((startDay + k) :: List.range' (startDay + k + 1) n)) =
          List.filter (fun d => decide (dow d ≠ 0) && decide (dow d ≠ 6))
            (List.range' (startDay + k + 1) n) := by
        rw [List.filter_cons, hp]
        simp
      simp only [genInterval, if_neg hdow]
      rw [hfil]
      exact ih (k + 1) s

/-- Every bar emitted by one generator interval has a close that is the
rounding of the linearly interpolated reference at its day offset,
perturbed by at most one noise amplitude (`u ∈ [−1, 1)` times 2.5% of the
reference) and clamped below at 1. -/
theorem genInterval_close (c1 c2 v1 v2 : ℚ) (startDay totalDays : ℕ) :
    ∀ (rem k s : ℕ), SeedOK s →
      ∀ b ∈ (genInterval c1 c2 v1 v2 startDay totalDays rem k s).1,
        ∃ (j : ℕ) (u : ℚ), b.date = startDay + j ∧ -1 ≤ u ∧ u < 1 ∧
          b.close = toFixed2 (max
            ((c1 + (c2 - c1) * ((j : ℚ) / (totalDays : ℚ))) +
              u * ((c1 + (c2 - c1) * ((j : ℚ) / (totalDays : ℚ))) * 0.025))
            1) := by
  intro rem
  induction rem with
  | zero => intro k s _ b hb; simp [genInterval] at hb
  | succ n ih =>
    intro k s hs b hb
    by_cases hdow : dow (startDay + k) ≠ 0 ∧ dow (startDay + k) ≠ 6
    · simp only [genInterval, if_pos hdow] at hb
      rcases List.mem_cons.mp hb with rfl | hb
      · refine ⟨k, (randVal (nextSeed s) - 0.5) * 2, rfl, ?_, ?_, rfl⟩
        · have := (randVal_bounds (nextSeed_ok hs)).1
          linarith
        · have := (randVal_bounds (nextSeed_ok hs)).2
          linarith
      · exact ih (k + 1) _
          (nextSeed_ok (nextSeed_ok (nextSeed_ok (nextSeed_ok
            (nextSeed_ok (nextSeed_ok hs)))))) b hb
    · simp only [genInterval, if_neg hdow] at hb
      exact ih (k + 1) s hs b hb

/-- The rounded perturbed midpoint close stays within the noise amplitude
3/8 of 15. -/
theorem toFixed2_mid_bound (u : ℚ) (h1 : -1 ≤ u) (h2 : u < 1) :
    |toFixed2 (max (15 + u * (3 / 8)) 1) - 15| ≤ 3 / 8 := by
  have hge : (1 : ℚ) ≤ 15 + u * (3 / 8) := by nlinarith
  rw [max_eq_left hge]
  have hlo : (14625 / 1000 : ℚ) ≤ 15 + u * (3 / 8) := by nlinarith
  have hup : (15 + u * (3 / 8)) * 100 + 1 / 2 < ((1538 : ℤ) : ℚ) := by
    push_cast
    nlinarith
  have hmono := toFixed2_mono hlo
  have hv : toFixed2 ((14625 / 1000 : ℚ)) = 1463 / 100 := by
    unfold toFixed2
    norm_num [round_eq]
  have hcut := toFixed2_lt_cutoff hup
  rw [hv] at hmono
  have hcut' : toFixed2 (15 + u * (3 / 8)) ≤ 1537 / 100 := by
    have : (((1538 : ℤ) : ℚ) - 1) / 100 = 1537 / 100 := by norm_num
    rw [this] at hcut
    exact hcut
  rw [abs_le]
  constructor <;> linarith

/-- C9: running the generator on the two-anchor table
`[(day0, 10.0, 1e6), (day10, 20.0, 2e6)]`, the bar of the midpoint
business day (day0 + 5, where the interpolated reference is 15.0) exists
and its close lies within the noise bound 2.5%·15 = 0.375 of 15.0. -/
theorem synthetic_midpoint_close :
    (∃ b ∈ genAnchors 42 midpointAnchors, b.date = dayNumber 2021 5 7) ∧
    (∀ b ∈ genAnchors 42 midpointAnchors, b.date = dayNumber 2021 5 7 →
      |b.close - 15| ≤ 0.375) := by
  have h1 : dayNumber 2021 5 12 - dayNumber 2021 5 2 = 10 := by decide
  have hgen : genAnchors 42 midpointAnchors =
      (genInterval 10 20 1e6 2e6 (dayNumber 2021 5 2) 10 10 0 42).1 := by
    simp only [midpointAnchors, genAnchors, List.append_nil]
    rw [h1]
  constructor
  · have hd := genInterval_dates 10 20 1e6 2e6 (dayNumber 2021 5 2) 10 10 0 42
    have hmem : dayNumber 2021 5 7 ∈ (List.filter
        (fun d => decide (dow d ≠ 0) && decide (dow d ≠ 6))
        (List.range' (dayNumber 2021 5 2 + 0) 10)) := by decide
    rw [← hd] at hmem
    rcases List.mem_map.mp hmem with ⟨b, hbmem, hbdate⟩
    exact ⟨b, by rw [hgen]; exact hbmem, hbdate⟩
  · intro b hb hdate
    rw [hgen] at hb
    rcases genInterval_close 10 20 1e6 2e6 (dayNumber 2021 5 2) 10 10 0 42
      ⟨by norm_num, by norm_num⟩ b hb with ⟨j, u, hdj, hu1, hu2, hclose⟩
    have h5 : dayNumber 2021 5 7 = dayNumber 2021 5 2 + 5 := by decide
    have hj : j = 5 := by omega
    subst hj
    rw [hclose]
    push_cast
    norm_num
    exact toFixed2_mid_bound u hu1 hu2
